import Mathlib

/-!
Shallow embedding of the session component of `ladok3.py` (class
`LadokSession`): identifier/date normalization, the result-reconciliation
read path (`get_results`), the result-upsert write path (`save_result`),
the sign-in guard, the logout transition, and the tail of the credential
handshake.  Machine behaviour (regex prefix matching with backtracking,
Python dict overwrite semantics, the order of validations and network
calls) is modelled directly from the source.
-/

namespace Ladok

/-! ## Character classes of the Python regexes

`\d` is an ASCII digit; `\w` is a word character (letter, digit or
underscore — the source operates on ASCII identifiers). -/

def isDigitChar (c : Char) : Bool := c.isDigit

def isWordChar (c : Char) : Bool := c.isAlphanum || c = '_'

/-- Backtracking alternation: take the first alternative's match, fall
back to the second when it fails (regex alternative/optional semantics). -/
def orElseO {α : Type} (a b : Option α) : Option α :=
  match a with
  | some x => some x
  | none => b

/-- Take exactly `n` characters satisfying `p` from the front of `s`,
returning the consumed group and the remainder (the fixed-width pieces
`\d\d`, `\d\d\d\d`, `\w\w\w\w` of the source regexes). -/
def takeN (p : Char → Bool) : Nat → List Char → Option (List Char × List Char)
  | 0, s => some ([], s)
  | _ + 1, [] => none
  | n + 1, c :: rest =>
    if p c then (takeN p n rest).map (fun g => (c :: g.1, g.2)) else none

/-! ## Person-number regex

`re.match("(\d\d)?(\d\d)(\d\d\d\d)[+\-]?(\w\w\w\w)", s)` from
`__validate_person_nr` (ladok3.py:3497).  `re.match` anchors at the start
but matches only a prefix; the optional century group `(\d\d)?` is greedy
with backtracking. -/

/-- The trailing group `(\w\w\w\w)` of the person-number regex, matched
at `u`. -/
def pnrGroup4 (g2 g3 : List Char) (u : List Char) :
    Option (List Char × List Char × List Char × List Char) :=
  (takeN isWordChar 4 u).map (fun g => (g2, g3, g.1, g.2))

/-- Groups 2–4 of the person-number regex: `(\d\d)(\d\d\d\d)[+\-]?(\w\w\w\w)`.
Returns (group2, group3, group4, unconsumed remainder).  The optional
separator `[+\-]?` is greedy: when a separator character is present the
engine first consumes it and backtracks into matching group 4 at the
separator itself only if that fails. -/
def pnrTail (s : List Char) : Option (List Char × List Char × List Char × List Char) :=
  match takeN isDigitChar 2 s with
  | none => none
  | some (g2, s2) =>
    match takeN isDigitChar 4 s2 with
    | none => none
    | some (g3, s3) =>
      match s3 with
      | c :: s4 =>
        if c = '+' || c = '-' then orElseO (pnrGroup4 g2 g3 s4) (pnrGroup4 g2 g3 s3)
        else pnrGroup4 g2 g3 s3
      | [] => pnrGroup4 g2 g3 s3

/-- The whole person-number regex, with the greedy-but-backtracking
optional century group.  Returns (group1?, group2, group3, group4,
unconsumed remainder); `none` means `re.match` found no prefix match. -/
def matchPnr (s : List Char) :
    Option (Option (List Char) × List Char × List Char × List Char × List Char) :=
  orElseO
    (match takeN isDigitChar 2 s with
   | some (g1, s1) => (pnrTail s1).map (fun g => (some g1, g))
   | none => none)
    ((pnrTail s).map (fun g => ((none : Option (List Char)), g)))

/-- Numeric value of a digit group, as Python `int(...)` reads it. -/
def digitsVal (l : List Char) : Nat :=
  l.foldl (fun a c => a * 10 + (c.toNat - '0'.toNat)) 0

/-- `LadokSession.__validate_person_nr` (ladok3.py:3496-3509).  `nowYear`
is `datetime.datetime.now().year`.  Century inference when group 1 is
missing: `now.year - 2000 >= int(group2) + 5` selects "20", else "19". -/
def validatePersonNr (nowYear : Nat) (s : String) : Option String :=
  match matchPnr s.data with
  | none => none
  | some (none, g2, g3, g4, _) =>
    if (nowYear : Int) - 2000 ≥ (digitsVal g2 : Int) + 5 then
      some (String.mk ('2' :: '0' :: (g2 ++ g3 ++ g4)))
    else
      some (String.mk ('1' :: '9' :: (g2 ++ g3 ++ g4)))
  | some (some g1, g2, g3, g4, _) =>
    some (String.mk (g1 ++ g2 ++ g3 ++ g4))

/-! ## Date regex

`re.match("(\d\d)?(\d\d)-?(\d\d)-?(\d\d)", s)` from `__validate_date`
(ladok3.py:3512-3521). -/

/-- The trailing group `(\d\d)` of the date regex, matched at `u`. -/
def dateGroup4 (g3 : List Char) (u : List Char) : Option (List Char × List Char × List Char) :=
  (takeN isDigitChar 2 u).map (fun g => (g3, g.1, g.2))

/-- Groups 3–4 of the date regex, after the first optional hyphen:
`(\d\d)-?(\d\d)`; the greedy optional hyphen backtracks like the
person-number separator. -/
def dateAfterG2 (s : List Char) : Option (List Char × List Char × List Char) :=
  match takeN isDigitChar 2 s with
  | none => none
  | some (g3, s3) =>
    match s3 with
    | c :: s4 => if c = '-' then orElseO (dateGroup4 g3 s4) (dateGroup4 g3 s3) else dateGroup4 g3 s3
    | [] => dateGroup4 g3 s3

/-- Groups 2–4 of the date regex: `(\d\d)-?(\d\d)-?(\d\d)`. -/
def dateTail (s : List Char) : Option (List Char × List Char × List Char × List Char) :=
  match takeN isDigitChar 2 s with
  | none => none
  | some (g2, s2) =>
    (match s2 with
     | c :: s3 => if c = '-' then orElseO (dateAfterG2 s3) (dateAfterG2 s2) else dateAfterG2 s2
     | [] => dateAfterG2 s2).map (fun g => (g2, g))

/-- The whole date regex with the backtracking optional century group. -/
def matchDate (s : List Char) :
    Option (Option (List Char) × List Char × List Char × List Char × List Char) :=
  orElseO
    (match takeN isDigitChar 2 s with
   | some (g1, s1) => (dateTail s1).map (fun g => (some g1, g))
   | none => none)
    ((dateTail s).map (fun g => ((none : Option (List Char)), g)))

/-- `LadokSession.__validate_date` (ladok3.py:3512-3521): a missing
century group always becomes "20" ("ladok3 won't survive till 2100"). -/
def validateDate (s : String) : Option String :=
  match matchDate s.data with
  | none => none
  | some (none, g2, g3, g4, _) =>
    some (String.mk (('2' :: '0' :: g2) ++ ('-' :: g3) ++ ('-' :: g4)))
  | some (some g1, g2, g3, g4, _) =>
    some (String.mk ((g1 ++ g2) ++ ('-' :: g3) ++ ('-' :: g4)))

/-! ## Substring test

Python's `grade_raw in "ABCDE"` and `'...' in r.text` are substring
containment. -/

/-- `needle in hay` for Python strings (substring containment; the empty
needle is contained in everything). -/
def hasSub (needle : List Char) : List Char → Bool
  | [] => needle.isEmpty
  | c :: t => needle.isPrefixOf (c :: t) || hasSub needle t

/-! ## Grade catalog

Loaded once at login from `/resultat/grunddata/betygsskala`
(ladok3.py:113-132) into `self.__grade_scales`. -/

structure Grade where
  id : Nat
  code : String
  accepted : Bool
deriving Repr, DecidableEq

structure GradeScale where
  id : Nat
  code : String
  name : String
  grades : List Grade
deriving Repr, DecidableEq

/-- `__get_grade_scale_by_id` (ladok3.py:3523-3524).  The source's
`next(...)` raises `StopIteration` when no scale has the id; that case is
modelled as `none`. -/
def getGradeScaleById (scales : List GradeScale) (i : Nat) : Option GradeScale :=
  scales.find? (fun gs => gs.id == i)

/-- `__get_grade_scale_by_code` (ladok3.py:3527-3528), same remark. -/
def getGradeScaleByCode (scales : List GradeScale) (c : String) : Option GradeScale :=
  scales.find? (fun gs => gs.code == c)

/-- `__get_grade_by_id` (ladok3.py:3531-3536): scans every scale's grades,
returns `None` when the id is unknown. -/
def getGradeById (scales : List GradeScale) (i : Nat) : Option Grade :=
  match scales with
  | [] => none
  | gs :: rest =>
    match gs.grades.find? (fun g => g.id == i) with
    | some g => some g
    | none => getGradeById rest i

/-! ## Students, course rounds, components -/

/-- `__get_student_data` result dict (ladok3.py:3565-3571). -/
structure Student where
  id : String
  first_name : String
  last_name : String
  person_nr : String
  alive : Bool
deriving Repr, DecidableEq

/-- One entry of `__get_student_courses` (ladok3.py:3582-3589). -/
structure StudentCourse where
  id : String
  round_id : String
  education_id : String
  instance_id : String
  code : String
  name : String
deriving Repr, DecidableEq

/-- One entry of `__get_student_course_moments` (ladok3.py:3597-3602). -/
structure CourseMoment where
  course_moment_id : String
  code : String
  education_id : String
  name : String
deriving Repr, DecidableEq

/-! ## The fetched result set of a course round

`__get_student_course_results` (ladok3.py:3605-3630) translates the raw
JSON response into a dict; the raw shapes below carry exactly the fields
the translation reads.  An `Option` field models the corresponding JSON
key being present or absent (`'Arbetsunderlag' in result`). -/

/-- Raw `Arbetsunderlag` (draft/pending) object.  The source reads
`Examinationsdatum` unconditionally here, so it is a plain field. -/
structure RawArbetsunderlag where
  uid : String
  utbildningsinstansUID : String
  betygsgrad : Nat
  examinationsdatum : String
  betygsskalaID : Nat
  senasteResultatandring : String
deriving Repr, DecidableEq

/-- Raw `SenastAttesteradeResultat` (attested) object. -/
structure RawAttesterade where
  uid : String
  utbildningsinstansUID : String
  betygsgrad : Nat
  examinationsdatum : String
  betygsskalaID : Nat
deriving Repr, DecidableEq

/-- One element of `ResultatPaUtbildningar`. -/
structure RawResultatEntry where
  utbildningUID : String
  arbetsunderlag : Option RawArbetsunderlag
  senastAttesteradeResultat : Option RawAttesterade
deriving Repr, DecidableEq

/-- The raw response of `/resultat/studieresultat/student/…/utbildningstillfalle/…`. -/
structure RawCourseResults where
  uid : String
  resultatPaUtbildningar : List RawResultatEntry
deriving Repr, DecidableEq

/-- Translated pending record (the `'pending'` dict, ladok3.py:3612-3620).
`last_modified` is `SenasteResultatandring`, kept because it is required
when updating a draft. -/
structure PendingRec where
  id : String
  moment_id : String
  grade : Option Grade
  date : String
  grade_scale : Option GradeScale
  last_modified : String
deriving Repr, DecidableEq

/-- Translated attested record (the `'attested'` dict, ladok3.py:3621-3627). -/
structure AttestedRec where
  id : String
  moment_id : String
  grade : Option Grade
  date : String
  grade_scale : Option GradeScale
deriving Repr, DecidableEq

/-- One element of the translated `'results'` list. -/
structure CourseResult where
  education_id : String
  pending : Option PendingRec
  attested : Option AttestedRec
deriving Repr, DecidableEq

/-- The translated return value of `__get_student_course_results`. -/
structure StudentCourseResults where
  id : String
  results : List CourseResult
deriving Repr, DecidableEq

/-- The `'pending'` dict built from a raw `Arbetsunderlag`
(ladok3.py:3612-3620). -/
def translatePending (scales : List GradeScale) (a : RawArbetsunderlag) : PendingRec :=
  { id := a.uid
    moment_id := a.utbildningsinstansUID
    grade := getGradeById scales a.betygsgrad
    date := a.examinationsdatum
    grade_scale := getGradeScaleById scales a.betygsskalaID
    last_modified := a.senasteResultatandring }

/-- The `'attested'` dict built from a raw `SenastAttesteradeResultat`
(ladok3.py:3621-3627). -/
def translateAttested (scales : List GradeScale) (a : RawAttesterade) : AttestedRec :=
  { id := a.uid
    moment_id := a.utbildningsinstansUID
    grade := getGradeById scales a.betygsgrad
    date := a.examinationsdatum
    grade_scale := getGradeScaleById scales a.betygsskalaID }

/-- One element of the translated `'results'` list (ladok3.py:3610-3628). -/
def translateEntry (scales : List GradeScale) (r : RawResultatEntry) : CourseResult :=
  { education_id := r.utbildningUID
    pending := r.arbetsunderlag.map (translatePending scales)
    attested := r.senastAttesteradeResultat.map (translateAttested scales) }

/-- `__get_student_course_results` (ladok3.py:3605-3630): field-for-field
translation of the raw response.  (The source's `__get_grade_scale_by_id`
would raise on an unknown scale id; that lookup is modelled as an
`Option`-valued field, which no claim depends on.) -/
def translateCourseResults (scales : List GradeScale) (raw : RawCourseResults) :
    StudentCourseResults :=
  { id := raw.uid
    results := raw.resultatPaUtbildningar.map (translateEntry scales) }

/-- The scan condition of ladok3.py:263-264, read off the raw entry: the
entry carries a draft whose component instance id is the target. -/
def pendingMatches (momentId : String) (r : RawResultatEntry) : Bool :=
  match r.arbetsunderlag with
  | some a => a.utbildningsinstansUID == momentId
  | none => false

/-! ## Python dict as an association list

`get_results` builds an (insertion-ordered) dict; assignment to an
existing key overwrites the value in place.  Keys are `Option String`
because `result['Utbildningskod']` can be JSON `null` (Python `None`),
which is a legal dict key. -/

/-- `m[k] = v` on a Python dict. -/
def dictInsert {K V : Type} [BEq K] (m : List (K × V)) (k : K) (v : V) : List (K × V) :=
  match m with
  | [] => [(k, v)]
  | (k', v') :: rest =>
    if k' == k then (k, v) :: rest else (k', v') :: dictInsert rest k v

/-- `m.get(k)` on a Python dict. -/
def dictLookup {K V : Type} [BEq K] (m : List (K × V)) (k : K) : Option V :=
  match m with
  | [] => none
  | (k', v') :: rest => if k' == k then some v' else dictLookup rest k

/-- The last element of a list satisfying `f`, if any (specification
vocabulary: repeated dict assignment keeps the last write). -/
def lastWith {α : Type} (f : α → Bool) : List α → Option α
  | [] => none
  | a :: rest =>
    match lastWith f rest with
    | some b => some b
    | none => if f a then some a else none

/-! ## Error taxonomy

Each constructor corresponds to one `raise` site (or one uncaught Python
exception) reachable from the modelled operations. -/

inductive SaveError where
  /-- `'Not signed in.'` -/
  | notSignedIn
  /-- `'Invalid grade: … looks like a grade_scale'` (ladok3.py:226-227). -/
  | invalidGradeScaleLike (grade : String)
  /-- `'Invalid grade: … does not match grade_scale …'` (ladok3.py:229-230). -/
  | invalidGradeMismatch (grade scale : String)
  /-- `'Invalid person nr …'`. -/
  | invalidPersonNr (raw : String)
  /-- `'Invalid grade date: … pnr: … moment: …'` (ladok3.py:236). -/
  | invalidDate (dateRaw pnrRaw moment : String)
  /-- `student_data['id']` with `student_data = None` raises `TypeError`. -/
  | pyTypeError
  /-- A bare `next(...)` over an empty generator raises `StopIteration`. -/
  | pyStopIteration
  /-- `course_moment_id` never assigned in the moment loop raises `NameError`. -/
  | pyNameError
  /-- A missing JSON key accessed without a guard raises `KeyError`. -/
  | pyKeyError
  /-- `"Kunde inte mata in …"` (ladok3.py:297): the write response lacked
  a `Resultat` collection. -/
  | writeRejected (pnrRaw moment grade dateRaw : String)
deriving Repr, DecidableEq

/-! ## Result reconciler (`get_results`, ladok3.py:157-203) -/

/-- One element of `course['Studentresultat']` in the attested-results
response, with exactly the keys the loop at ladok3.py:181-188 reads.
`none` in `betygsgradskod`/`examinationsdatum` means the key is absent
(the raised `KeyError` is caught and the record skipped); the outer
`Option` of `utbildningskod` is key absence, the inner is JSON `null`. -/
structure AttestedResultRaw where
  betygsgradskod : Option String
  examinationsdatum : Option String
  utbildningskod : Option (Option String)
deriving Repr, DecidableEq

/-- One element of `StudentresultatPerKurs` (ladok3.py:174-177). -/
structure AttestedCourseGroup where
  kursUID : String
  studentresultat : List AttestedResultRaw
deriving Repr, DecidableEq

/-- One element of the pending-results response `r['Resultat']`
(ladok3.py:193-202).  `Betygsgradsobjekt.Kod` and `ProcessStatus` are read
unconditionally; `Examinationsdatum` presence is tested. -/
structure PendingRaw where
  utbildningsinstansUID : String
  betygsgradskod : String
  processStatus : Nat
  examinationsdatum : Option String
deriving Repr, DecidableEq

/-- One value of the dict `get_results` returns. -/
structure ResultEntry where
  grade : String
  status : String
  date : String
deriving Repr, DecidableEq

/-- The dict `get_results` returns (keyed by `Utbildningskod`). -/
abbrev RMap := List (Option String × ResultEntry)

/-- The body of the attested loop (ladok3.py:181-188): build the entry and
assign it, skipping the record when any of the three keys is missing. -/
def attestedStep (m : RMap) (a : AttestedResultRaw) : RMap :=
  match a.betygsgradskod, a.examinationsdatum, a.utbildningskod with
  | some g, some d, some k => dictInsert m k { grade := g, status := "attested", date := d }
  | _, _, _ => m

/-- The entry built for one pending record (ladok3.py:195-201): status is
`"pending(" + str(ProcessStatus) + ")"`, date falls back to `"0"` for
undated drafts. -/
def pendingEntry (p : PendingRaw) : ResultEntry :=
  { grade := p.betygsgradskod
    status := "pending(" ++ toString p.processStatus ++ ")"
    date := p.examinationsdatum.getD "0" }

/-! ## The environment

The remote service's responses, as the session-level functions consume
them.  `instanceCode` is the `Utbildningskod` of
`/resultat/utbildningsinstans/<uid>` (outer `none` = key absent). -/

structure LadokEnv where
  studentLookup : String → Option Student
  studentCourses : String → List StudentCourse
  courseMoments : String → String → List CourseMoment
  courseResultsRaw : String → String → RawCourseResults
  attestedByStudent : String → List AttestedCourseGroup
  pendingResults : String → String → List PendingRaw
  instanceCode : String → Option (Option String)
  gradeScales : List GradeScale
  writeAccepted : SaveCall → Bool

/-- The pending loop of `get_results` (ladok3.py:193-202): one secondary
lookup per record resolves the component code, then the entry is assigned
over whatever the attested pass wrote for the same key. -/
def processPending (env : LadokEnv) (m : RMap) : List PendingRaw → Except SaveError RMap
  | [] => .ok m
  | p :: rest =>
    match env.instanceCode p.utbildningsinstansUID with
    | none => .error .pyKeyError
    | some k => processPending env (dictInsert m k (pendingEntry p)) rest

/-- `get_results` (ladok3.py:157-203). -/
def get_results_full (signedIn : Bool) (env : LadokEnv) (nowYear : Nat)
    (person_nr_raw course_code : String) : Except SaveError RMap :=
  if !signedIn then .error .notSignedIn
  else
    match validatePersonNr nowYear person_nr_raw with
    | none => .error (.invalidPersonNr person_nr_raw)
    | some person_nr =>
      match env.studentLookup person_nr with
      | none => .error .pyTypeError
      | some student =>
        match (env.studentCourses student.id).find? (fun c => c.code == course_code) with
        | none => .error .pyStopIteration
        | some student_course =>
          let attested : List AttestedResultRaw :=
            match (env.attestedByStudent student.id).find?
                (fun g => g.kursUID == student_course.education_id) with
            | some g => g.studentresultat
            | none => []
          let m := attested.foldl attestedStep []
          processPending env m (env.pendingResults student.id student_course.education_id)

/-! ## Result upsert (`save_result`, ladok3.py:223-299) -/

/-- The write issued at the end of `save_result`: either the update of an
existing draft (PUT `/resultat/studieresultat/uppdatera`, body at
ladok3.py:270-279) or the creation of a new one (POST
`/resultat/studieresultat/skapa`, body at ladok3.py:285-294).
`Noteringar` is always the empty list and is omitted. -/
inductive SaveCall where
  | update (resultatUID : String) (betygsgrad : Nat) (betygsskalaID : Nat)
      (examinationsdatum : String) (senasteResultatandring : String)
  | create (studieresultatUID : String) (utbildningsinstansUID : String)
      (betygsgrad : Nat) (betygsskalaID : Nat) (examinationsdatum : String)
deriving Repr, DecidableEq

/-- The scan at ladok3.py:262-266: the first result whose pending record
matches the target component instance id, if any. -/
def findPrevious (results : List CourseResult) (momentId : String) : Option PendingRec :=
  (results.find? (fun r =>
    match r.pending with
    | some p => p.moment_id == momentId
    | none => false)).bind (fun r => r.pending)

/-- The create-vs-update decision and payload (ladok3.py:260-295). -/
def save_result_write (scr : StudentCourseResults) (momentId : String)
    (gradeId scaleId : Nat) (date : String) : SaveCall :=
  match findPrevious scr.results momentId with
  | some p => .update p.id gradeId scaleId date p.last_modified
  | none => .create scr.id momentId gradeId scaleId date

/-- The network requests a session operation performs, in order. -/
inductive NetworkCall where
  | getStudentData (personNr : String)
  | getStudentCourses (studentId : String)
  | getCourseMoments (roundId studentId : String)
  | getCourseResults (studentId roundId : String)
  | putUpdate (payload : SaveCall)
  | postCreate (payload : SaveCall)
deriving Repr, DecidableEq

/-- Outcome of a `save_result` call: the network requests it made, its
return value or exception, and the session's `signed_in` flag afterwards. -/
structure SaveOutcome where
  calls : List NetworkCall
  result : Except SaveError Bool
  signedInAfter : Bool
deriving Repr

/-- `save_result` (ladok3.py:223-299), step for step:
sign-in guard; the two local grade checks; person-number and date
normalization; student lookup; course-round selection (first code match,
`next(...)`); component-instance resolution (the enrollment's own
instance id for a whole-course grade, otherwise the moment loop — which
has no `break`, so the **last** code match wins, and an absent match
leaves `course_moment_id` unbound, a `NameError`); the result-set fetch;
grade-scale and grade resolution; the pending scan; the PUT or POST; and
the `'Resultat' in r.json()` response check.  `save_result` never assigns
`self.signed_in`, so `signedInAfter` equals the flag it was called with. -/
def save_result_full (signedIn : Bool) (env : LadokEnv) (nowYear : Nat)
    (person_nr_raw course_code course_moment result_date_raw grade_raw grade_scale_code :
      String) : SaveOutcome :=
  if !signedIn then ⟨[], .error .notSignedIn, signedIn⟩
  else if grade_raw == "AF" || grade_raw == "PF" then
    ⟨[], .error (.invalidGradeScaleLike grade_raw), signedIn⟩
  else if (grade_raw == "P" && grade_scale_code == "AF")
      || (hasSub grade_raw.data "ABCDE".data && grade_scale_code == "PF") then
    ⟨[], .error (.invalidGradeMismatch grade_raw grade_scale_code), signedIn⟩
  else
    match validatePersonNr nowYear person_nr_raw with
    | none => ⟨[], .error (.invalidPersonNr person_nr_raw), signedIn⟩
    | some person_nr =>
      match validateDate result_date_raw with
      | none => ⟨[], .error (.invalidDate result_date_raw person_nr_raw course_moment), signedIn⟩
      | some result_date =>
        let calls1 := [NetworkCall.getStudentData person_nr]
        match env.studentLookup person_nr with
        | none => ⟨calls1, .error .pyTypeError, signedIn⟩
        | some student =>
          let calls2 := calls1 ++ [NetworkCall.getStudentCourses student.id]
          match (env.studentCourses student.id).find? (fun c => c.code == course_code) with
          | none => ⟨calls2, .error .pyStopIteration, signedIn⟩
          | some student_course =>
            let resolved : List NetworkCall × Option String :=
              if course_moment == student_course.code then
                (calls2, some student_course.instance_id)
              else
                (calls2 ++ [NetworkCall.getCourseMoments student_course.round_id student.id],
                 (((env.courseMoments student_course.round_id student.id).filter
                     (fun x => x.code == course_moment)).getLast?).map
                   (fun x => x.course_moment_id))
            match resolved.2 with
            | none => ⟨resolved.1, .error .pyNameError, signedIn⟩
            | some course_moment_id =>
              let calls4 := resolved.1 ++
                [NetworkCall.getCourseResults student.id student_course.round_id]
              let scr := translateCourseResults env.gradeScales
                (env.courseResultsRaw student_course.round_id student.id)
              match getGradeScaleByCode env.gradeScales grade_scale_code with
              | none => ⟨calls4, .error .pyStopIteration, signedIn⟩
              | some scale =>
                match scale.grades.find? (fun g => g.code == grade_raw) with
                | none => ⟨calls4, .error .pyStopIteration, signedIn⟩
                | some grade =>
                  let call := save_result_write scr course_moment_id grade.id scale.id
                    result_date
                  let wire := match call with
                    | .update _ _ _ _ _ => NetworkCall.putUpdate call
                    | .create _ _ _ _ _ => NetworkCall.postCreate call
                  let calls5 := calls4 ++ [wire]
                  if env.writeAccepted call then ⟨calls5, .ok true, signedIn⟩
                  else
                    ⟨calls5,
                     .error (.writeRejected person_nr_raw course_moment grade_raw
                       result_date_raw),
                     signedIn⟩

/-! ## Other session operations -/

/-- `get_student_data` (ladok3.py:311-318): guard, validate, one lookup;
the inner `__get_student_data` may return `None` and is passed through. -/
def get_student_data_full (signedIn : Bool) (env : LadokEnv) (nowYear : Nat)
    (person_nr_raw : String) : Except SaveError (Option Student) :=
  if !signedIn then .error .notSignedIn
  else
    match validatePersonNr nowYear person_nr_raw with
    | none => .error (.invalidPersonNr person_nr_raw)
    | some person_nr => .ok (env.studentLookup person_nr)

/-- `logout` (ladok3.py:387-396): guard, one GET; `signed_in` is cleared
only when the logout response status is 200.  Returns the response status
and the new `signed_in` flag. -/
def logout_full (signedIn : Bool) (statusCode : Nat) : Except SaveError Nat × Bool :=
  if !signedIn then (.error .notSignedIn, signedIn)
  else (.ok statusCode, if statusCode == 200 then false else signedIn)

/-- `all_grading_scale` (ladok3.py:406-409): returns `self.__grade_scales`
— the source has no `signed_in` guard in this method, so the flag is
never consulted. -/
def all_grading_scale (signedIn : Bool) (grade_scales : List GradeScale) :
    Except SaveError (List GradeScale) :=
  .ok grade_scales

/-! ## Credential-handshake tail (ladok3.py:92-111)

After POSTing the credentials, the constructor extracts an action URL, a
relay state and a SAML response from the returned page by literal-markup
search, POSTs them, and checks the final page for the
not-recognized-teacher marker. -/

/-- The characters after the leftmost occurrence of the literal `needle`
in `hay` (`none` when `needle` does not occur). -/
def splitOnceAfter (needle : List Char) : List Char → Option (List Char)
  | [] => if needle.isEmpty then some [] else none
  | c :: t =>
    if needle.isPrefixOf (c :: t) then some ((c :: t).drop needle.length)
    else splitOnceAfter needle t

/-- Characters before the next occurrence of the literal `post`
(`none` when `post` does not occur). -/
def captureUntil (post : List Char) : List Char → Option (List Char)
  | [] => if post.isEmpty then some [] else none
  | c :: t =>
    if post.isPrefixOf (c :: t) then some []
    else (captureUntil post t).map (fun g => c :: g)

/-- `re.search(pre + '(.*?)' + post, hay)` for literal `pre`/`post`: the
lazily captured text between the leftmost occurrence of `pre` and the
next occurrence of `post`.  (When `post` never occurs after the first
occurrence of `pre` the engine would go on to try later occurrences of
`pre`; no page the claims touch has that shape.) -/
def searchCapture (pre post hay : List Char) : Option (List Char) :=
  match splitOnceAfter pre hay with
  | none => none
  | some rest => captureUntil post rest

/-- The literal markup before the capture of
`'<form action="(.*?)" method="post">'` (ladok3.py:94). -/
def formActionPre : List Char := "<form action=\"".data

/-- The literal markup after that capture. -/
def formActionPost : List Char := "\" method=\"post\">".data

/-- Before the capture of
`'<input type="hidden" name="RelayState" value="([^"]+)"\/>'`
(ladok3.py:98; the `[^\"]+` class excludes the closing quote, which the
lazy capture up to `"/>` reproduces on the pages at issue). -/
def relayStatePre : List Char := "<input type=\"hidden\" name=\"RelayState\" value=\"".data

/-- Before the capture of
`'<input type="hidden" name="SAMLResponse" value="(.*?)"/>'` (ladok3.py:101). -/
def samlResponsePre : List Char := "<input type=\"hidden\" name=\"SAMLResponse\" value=\"".data

/-- The closing markup `'"/>'` shared by the two hidden-input patterns. -/
def hiddenInputPost : List Char := "\"/>".data

/-- `'Din användare finns inte i Ladok'` (ladok3.py:111). -/
def notTeacherMarker : List Char := "Din användare finns inte i Ladok".data

/-- The errors the handshake tail can surface. -/
inductive LoginError where
  /-- `'Invalid username or password.'` (ladok3.py:95). -/
  | invalidCredentials
  /-- `.group(1)` on a failed `re.search` raises `AttributeError`
  (ladok3.py:98-102). -/
  | pyAttributeError
  /-- `'Signed in successfully, but not as a teacher.'` (ladok3.py:111). -/
  | notATeacher
deriving Repr, DecidableEq

/-- The tail of `LadokSession.__init__` from the credentials POST to the
teacher check (ladok3.py:92-111).  `credPage` is the page returned by the
credentials POST; `postSaml` maps the (unescaped) action URL, relay state
and SAML response to the page the final POST returns; `unescape` is
Python's `html.unescape` (standard library, kept abstract). -/
def loginTail (unescape : List Char → List Char) (credPage : List Char)
    (postSaml : List Char → List Char → List Char → List Char) :
    Except LoginError (List Char) :=
  match searchCapture formActionPre formActionPost credPage with
  | none => .error .invalidCredentials
  | some actionRaw =>
    match searchCapture relayStatePre hiddenInputPost credPage with
    | none => .error .pyAttributeError
    | some relayRaw =>
      match searchCapture samlResponsePre hiddenInputPost credPage with
      | none => .error .pyAttributeError
      | some samlRaw =>
        let finalPage := postSaml (unescape actionRaw) (unescape relayRaw) (unescape samlRaw)
        if hasSub notTeacherMarker finalPage then .error .notATeacher
        else .ok finalPage

/-! ## Lemmas about the regex embedding -/

theorem orElseO_some {α : Type} {x : α} {b : Option α} : orElseO (some x) b = some x := rfl

theorem orElseO_none {α : Type} {b : Option α} : orElseO none b = b := rfl

theorem takeN_sound {p : Char → Bool} :
    ∀ {n : Nat} {s g r : List Char}, takeN p n s = some (g, r) →
      g.length = n ∧ g.all p = true ∧ s = g ++ r := by
  intro n
  induction n with
  | zero =>
    intro s g r h
    simp only [takeN, Option.some.injEq, Prod.mk.injEq] at h
    obtain ⟨rfl, rfl⟩ := h
    simp
  | succ n ih =>
    intro s g r h
    match s with
    | [] => simp [takeN] at h
    | c :: rest =>
      simp only [takeN] at h
      by_cases hc : p c
      · rw [if_pos hc] at h
        cases ht : takeN p n rest with
        | none => rw [ht] at h; simp at h
        | some gr =>
          rw [ht] at h
          simp only [Option.map_some', Option.some.injEq, Prod.mk.injEq] at h
          obtain ⟨rfl, rfl⟩ := h
          obtain ⟨h1, h2, h3⟩ := ih ht
          subst h3
          simp [h1, h2, hc]
      · rw [if_neg hc] at h; simp at h

theorem takeN_exact {p : Char → Bool} :
    ∀ {g : List Char}, g.all p = true → ∀ r : List Char,
      takeN p g.length (g ++ r) = some (g, r) := by
  intro g
  induction g with
  | nil => intro _ r; rfl
  | cons c g' ih =>
    intro hall r
    simp only [List.all_cons, Bool.and_eq_true] at hall
    show takeN p (g'.length + 1) (c :: (g' ++ r)) = some (c :: g', r)
    simp only [takeN, if_pos hall.1, ih hall.2 r, Option.map_some']

theorem takeN_mono {p : Char → Bool} {n : Nat} {s g r : List Char}
    (h : takeN p n s = some (g, r)) (t : List Char) :
    takeN p n (s ++ t) = some (g, r ++ t) := by
  obtain ⟨h1, h2, h3⟩ := takeN_sound h
  subst h3
  rw [← h1, List.append_assoc]
  exact takeN_exact h2 (r ++ t)

theorem data_mk (l : List Char) : (String.mk l).data = l := rfl

theorem pnrGroup4_inv {g2 g3 u a b g4 r : List Char}
    (h : pnrGroup4 g2 g3 u = some (a, b, g4, r)) :
    a = g2 ∧ b = g3 ∧ takeN isWordChar 4 u = some (g4, r) := by
  unfold pnrGroup4 at h
  cases ht : takeN isWordChar 4 u with
  | none => rw [ht] at h; simp at h
  | some gr =>
    obtain ⟨x, y⟩ := gr
    rw [ht] at h
    simp only [Option.map_some', Option.some.injEq, Prod.mk.injEq] at h
    obtain ⟨rfl, rfl, rfl, rfl⟩ := h
    exact ⟨rfl, rfl, rfl⟩

theorem pnrTail_sound {s g2 g3 g4 r : List Char}
    (h : pnrTail s = some (g2, g3, g4, r)) :
    g2.length = 2 ∧ g2.all isDigitChar = true ∧ g3.length = 4 ∧ g3.all isDigitChar = true
      ∧ g4.length = 4 ∧ g4.all isWordChar = true := by
  unfold pnrTail at h
  split at h
  · exact absurd h (by simp)
  rename_i g2' s2 h2
  split at h
  · exact absurd h (by simp)
  rename_i g3' s3 h3
  have finish : ∀ u, pnrGroup4 g2' g3' u = some (g2, g3, g4, r) →
      g2.length = 2 ∧ g2.all isDigitChar = true ∧ g3.length = 4 ∧ g3.all isDigitChar = true
        ∧ g4.length = 4 ∧ g4.all isWordChar = true := by
    intro u hu
    obtain ⟨rfl, rfl, ht⟩ := pnrGroup4_inv hu
    obtain ⟨l2, a2, _⟩ := takeN_sound h2
    obtain ⟨l3, a3, _⟩ := takeN_sound h3
    obtain ⟨l4, a4, _⟩ := takeN_sound ht
    exact ⟨l2, a2, l3, a3, l4, a4⟩
  split at h
  · rename_i c s4 heq
    split at h
    · unfold orElseO at h
      split at h
      · rename_i x hx
        obtain rfl := Option.some.inj h
        exact finish _ hx
      · exact finish _ h
    · exact finish _ h
  · exact finish _ h

theorem matchPnr_sound {s : List Char} {og1 : Option (List Char)} {g2 g3 g4 r : List Char}
    (h : matchPnr s = some (og1, g2, g3, g4, r)) :
    (∀ g1, og1 = some g1 → g1.length = 2 ∧ g1.all isDigitChar = true)
      ∧ g2.length = 2 ∧ g2.all isDigitChar = true ∧ g3.length = 4 ∧ g3.all isDigitChar = true
      ∧ g4.length = 4 ∧ g4.all isWordChar = true := by
  unfold matchPnr at h
  unfold orElseO at h
  split at h
  · rename_i x hx
    obtain rfl := Option.some.inj h
    split at hx
    · rename_i g1 s1 h1
      rw [Option.map_eq_some'] at hx
      obtain ⟨y, hy, hxy⟩ := hx
      obtain ⟨yg2, yg3, yg4, yr⟩ := y
      cases hxy
      refine ⟨?_, pnrTail_sound hy⟩
      intro g1' hg1'
      obtain rfl := Option.some.inj hg1'
      obtain ⟨l1, a1, _⟩ := takeN_sound h1
      exact ⟨l1, a1⟩
    · exact absurd hx (by simp)
  · rw [Option.map_eq_some'] at h
    obtain ⟨y, hy, hxy⟩ := h
    obtain ⟨yg2, yg3, yg4, yr⟩ := y
    cases hxy
    exact ⟨fun g1 hg1 => Option.noConfusion hg1, pnrTail_sound hy⟩

theorem wordChar_ne_plus {c : Char} (h : isWordChar c = true) : c ≠ '+' := by
  intro hc; rw [hc] at h; exact absurd h (by decide)

theorem wordChar_ne_minus {c : Char} (h : isWordChar c = true) : c ≠ '-' := by
  intro hc; rw [hc] at h; exact absurd h (by decide)

theorem pnrTail_canonical {g2 g3 g4 : List Char}
    (h22 : g2.length = 2) (h2all : g2.all isDigitChar = true)
    (h34 : g3.length = 4) (h3all : g3.all isDigitChar = true)
    (h44 : g4.length = 4) (h4all : g4.all isWordChar = true) :
    pnrTail (g2 ++ (g3 ++ g4)) = some (g2, g3, g4, []) := by
  have u2 : takeN isDigitChar 2 (g2 ++ (g3 ++ g4)) = some (g2, g3 ++ g4) := by
    rw [← h22]; exact takeN_exact h2all _
  have u3 : takeN isDigitChar 4 (g3 ++ g4) = some (g3, g4) := by
    rw [← h34]; exact takeN_exact h3all _
  have u4 : takeN isWordChar 4 g4 = some (g4, []) := by
    have h0 := takeN_exact h4all []
    rw [List.append_nil] at h0
    rw [← h44]; exact h0
  obtain ⟨c, g4', rfl⟩ : ∃ c g4', g4 = c :: g4' := by
    cases g4 with
    | nil => simp at h44
    | cons c g4' => exact ⟨c, g4', rfl⟩
  have hw : isWordChar c = true := by
    simp only [List.all_cons, Bool.and_eq_true] at h4all
    exact h4all.1
  unfold pnrTail
  simp only [u2, u3]
  rw [if_neg (by simp [wordChar_ne_plus hw, wordChar_ne_minus hw])]
  simp [pnrGroup4, u4]

theorem matchPnr_canonical {d g2 g3 g4 : List Char}
    (hd2 : d.length = 2) (hdall : d.all isDigitChar = true)
    (h22 : g2.length = 2) (h2all : g2.all isDigitChar = true)
    (h34 : g3.length = 4) (h3all : g3.all isDigitChar = true)
    (h44 : g4.length = 4) (h4all : g4.all isWordChar = true) :
    matchPnr (d ++ (g2 ++ (g3 ++ g4))) = some (some d, g2, g3, g4, []) := by
  have t1 : takeN isDigitChar 2 (d ++ (g2 ++ (g3 ++ g4))) = some (d, g2 ++ (g3 ++ g4)) := by
    rw [← hd2]; exact takeN_exact hdall _
  unfold matchPnr
  simp only [t1, pnrTail_canonical h22 h2all h34 h3all h44 h4all, Option.map_some']
  rfl

/-- Branch equation: no prefix match means no result. -/
theorem validatePersonNr_noMatch {nowYear : Nat} {s : String}
    (hm : matchPnr s.data = none) : validatePersonNr nowYear s = none := by
  unfold validatePersonNr; rw [hm]

/-- Branch equation: century group missing — the threshold rule applies. -/
theorem validatePersonNr_noCentury {nowYear : Nat} {s : String} {g2 g3 g4 r : List Char}
    (hm : matchPnr s.data = some (none, g2, g3, g4, r)) :
    validatePersonNr nowYear s =
      if (nowYear : Int) - 2000 ≥ (digitsVal g2 : Int) + 5 then
        some (String.mk ('2' :: '0' :: (g2 ++ g3 ++ g4)))
      else some (String.mk ('1' :: '9' :: (g2 ++ g3 ++ g4))) := by
  unfold validatePersonNr; rw [hm]

/-- Branch equation: century group present — groups are concatenated. -/
theorem validatePersonNr_withCentury {nowYear : Nat} {s : String} {g1 g2 g3 g4 r : List Char}
    (hm : matchPnr s.data = some (some g1, g2, g3, g4, r)) :
    validatePersonNr nowYear s = some (String.mk (g1 ++ g2 ++ g3 ++ g4)) := by
  unfold validatePersonNr; rw [hm]

/-- C8: person-identifier normalization is idempotent — any string a
successful normalization returns is returned unchanged (and independently
of the clock) when normalized again. -/
theorem person_nr_idempotent (nowYear nowYear2 : Nat) (s c : String)
    (h : validatePersonNr nowYear s = some c) :
    validatePersonNr nowYear2 c = some c := by
  cases hm : matchPnr s.data with
  | none => rw [validatePersonNr_noMatch hm] at h; exact absurd h (by simp)
  | some q =>
    obtain ⟨og1, g2, g3, g4, r⟩ := q
    obtain ⟨hg1, h22, h2all, h34, h3all, h44, h4all⟩ := matchPnr_sound hm
    have run : ∀ d : List Char, d.length = 2 → d.all isDigitChar = true →
        validatePersonNr nowYear2 (String.mk (d ++ (g2 ++ (g3 ++ g4))))
          = some (String.mk (d ++ (g2 ++ (g3 ++ g4)))) := by
      intro d hd2 hdall
      have hm2 : matchPnr (String.mk (d ++ (g2 ++ (g3 ++ g4)))).data
          = some (some d, g2, g3, g4, []) := by
        rw [data_mk]
        exact matchPnr_canonical hd2 hdall h22 h2all h34 h3all h44 h4all
      rw [validatePersonNr_withCentury hm2]
      simp [List.append_assoc]
    cases og1 with
    | none =>
      rw [validatePersonNr_noCentury hm] at h
      by_cases hc : (nowYear : Int) - 2000 ≥ (digitsVal g2 : Int) + 5
      · rw [if_pos hc] at h
        obtain rfl : c = String.mk ('2' :: '0' :: (g2 ++ g3 ++ g4)) := (Option.some.inj h).symm
        have h0 := run ['2', '0'] rfl (by decide)
        simpa [List.append_assoc] using h0
      · rw [if_neg hc] at h
        obtain rfl : c = String.mk ('1' :: '9' :: (g2 ++ g3 ++ g4)) := (Option.some.inj h).symm
        have h0 := run ['1', '9'] rfl (by decide)
        simpa [List.append_assoc] using h0
    | some g1 =>
      rw [validatePersonNr_withCentury hm] at h
      obtain rfl : c = String.mk (g1 ++ g2 ++ g3 ++ g4) := (Option.some.inj h).symm
      obtain ⟨hl1, ha1⟩ := hg1 g1 rfl
      have h0 := run g1 hl1 ha1
      simpa [List.append_assoc] using h0

/-- C8 witness: normalizing a canonical identifier again returns it
unchanged. -/
theorem person_nr_idempotent_witness :
    Ladok.validatePersonNr 2031 "194612121212" = some "194612121212" :=
  person_nr_idempotent 2024 2031 "19461212-1212" "194612121212" (by decide)

/-- C4: century inference for identifiers without century digits: the
output is "20"+YYMMDD+suffix exactly when (current year mod 100) − YY is
at least 5, else "19"+…, with the 4-character suffix kept verbatim and
the separator dropped.  (`nowYear` ranges over the years the running
system can observe this century, where Python's `now.year - 2000` agrees
with the year mod 100.) -/
theorem person_nr_century_inference (nowYear : Nat) (s : String) (g2 g3 g4 r : List Char)
    (hy1 : 2000 ≤ nowYear) (hy2 : nowYear ≤ 2099)
    (hm : matchPnr s.data = some (none, g2, g3, g4, r)) :
    validatePersonNr nowYear s =
      some (String.mk ((if 5 ≤ ((nowYear % 100 : Nat) : Int) - (digitsVal g2 : Int)
        then ['2', '0'] else ['1', '9']) ++ (g2 ++ g3 ++ g4))) := by
  rw [validatePersonNr_noCentury hm]
  have hmod : ((nowYear % 100 : Nat) : Int) = (nowYear : Int) - 2000 := by omega
  by_cases hc : (nowYear : Int) - 2000 ≥ (digitsVal g2 : Int) + 5
  · rw [if_pos hc, if_pos (by omega)]; rfl
  · rw [if_neg hc, if_neg (by omega)]; rfl

/-- C4 witness: in 2024 the two-digit year 05 gets the 2000s century, and
the suffix after the separator is kept verbatim. -/
theorem person_nr_century_inference_witness :
    Ladok.validatePersonNr 2024 "051212-1212" =
      some (String.mk ((if 5 ≤ ((2024 % 100 : Nat) : Int) - (Ladok.digitsVal "05".data : Int)
        then ['2', '0'] else ['1', '9']) ++ ("05".data ++ "1212".data ++ "1212".data))) :=
  person_nr_century_inference 2024 "051212-1212" "05".data "1212".data "1212".data []
    (by decide) (by decide) (by decide)

/-- Branch equation for the date normalizer: century group missing. -/
theorem validateDate_noCentury {s : String} {g2 g3 g4 r : List Char}
    (hm : matchDate s.data = some (none, g2, g3, g4, r)) :
    validateDate s = some (String.mk (('2' :: '0' :: g2) ++ ('-' :: g3) ++ ('-' :: g4))) := by
  unfold validateDate; rw [hm]

/-- C7: date normalization maps "190314" (century omitted) to
"2019-03-14", maps "19-03-14" to the same, yields no result for "abc",
and prefixes the canonical output of every century-omitted input with
"20". -/
theorem date_normalization_examples (s : String) (g2 g3 g4 r : List Char)
    (hm : matchDate s.data = some (none, g2, g3, g4, r)) :
    validateDate "190314" = some "2019-03-14"
    ∧ validateDate "19-03-14" = some "2019-03-14"
    ∧ validateDate "abc" = none
    ∧ validateDate s = some (String.mk (('2' :: '0' :: g2) ++ ('-' :: g3) ++ ('-' :: g4)))
    ∧ ['2', '0'].isPrefixOf (('2' :: '0' :: g2) ++ ('-' :: g3) ++ ('-' :: g4)) = true := by
  refine ⟨by decide, by decide, by decide, validateDate_noCentury hm, ?_⟩
  simp [List.isPrefixOf]

/-- C7 witness: the concrete examples, via the claim's theorem at
input "190314". -/
theorem date_normalization_examples_witness :
    Ladok.validateDate "190314" = some "2019-03-14"
    ∧ Ladok.validateDate "19-03-14" = some "2019-03-14"
    ∧ Ladok.validateDate "abc" = none := by
  have h := date_normalization_examples "190314" "19".data "03".data "14".data [] (by decide)
  exact ⟨h.1, h.2.1, h.2.2.1⟩

/-! ## Prefix-extension monotonicity of the two matchers -/

theorem orElseO_some_left {α : Type} {a b : Option α} {v : α} (ha : a = some v) :
    orElseO a b = some v := by rw [ha]; rfl

theorem orElseO_some_right {α : Type} {a b : Option α} (v : α) (hb : b = some v) :
    ∃ w, orElseO a b = some w := by
  cases a with
  | some x => exact ⟨x, rfl⟩
  | none => exact ⟨v, by rw [orElseO_none, hb]⟩

theorem digitChar_ne_minus {c : Char} (h : isDigitChar c = true) : c ≠ '-' := by
  intro hc; rw [hc] at h; exact absurd h (by decide)

/-- Full inversion of `pnrTail`: the consumed prefix is the three groups
with an optional one-character separator between groups 3 and 4. -/
theorem pnrTail_decomp {s g2 g3 g4 r : List Char}
    (h : pnrTail s = some (g2, g3, g4, r)) :
    ∃ sep, (sep = [] ∨ sep = ['+'] ∨ sep = ['-'])
      ∧ s = g2 ++ (g3 ++ (sep ++ (g4 ++ r))) := by
  unfold pnrTail at h
  split at h
  · exact absurd h (by simp)
  rename_i g2' s2 h2
  split at h
  · exact absurd h (by simp)
  rename_i g3' s3 h3
  obtain ⟨_, _, hs⟩ := takeN_sound h2
  obtain ⟨_, _, hs2⟩ := takeN_sound h3
  subst hs; subst hs2
  split at h
  · rename_i c s4
    split at h
    · rename_i hsep
      unfold orElseO at h
      split at h
      · rename_i x hx
        obtain rfl := Option.some.inj h
        obtain ⟨rfl, rfl, ht⟩ := pnrGroup4_inv hx
        obtain ⟨_, _, hs4⟩ := takeN_sound ht
        subst hs4
        refine ⟨[c], ?_, by simp⟩
        simp only [Bool.or_eq_true, decide_eq_true_eq] at hsep
        rcases hsep with rfl | rfl
        · exact Or.inr (Or.inl rfl)
        · exact Or.inr (Or.inr rfl)
      · obtain ⟨rfl, rfl, ht⟩ := pnrGroup4_inv h
        obtain ⟨_, _, hs4⟩ := takeN_sound ht
        exact ⟨[], Or.inl rfl, by rw [hs4]; simp⟩
    · obtain ⟨rfl, rfl, ht⟩ := pnrGroup4_inv h
      obtain ⟨_, _, hs4⟩ := takeN_sound ht
      exact ⟨[], Or.inl rfl, by rw [hs4]; simp⟩
  · -- the remainder after group 3 is empty: group 4 cannot have matched
    obtain ⟨rfl, rfl, ht⟩ := pnrGroup4_inv h
    rw [show takeN isWordChar 4 ([] : List Char) = none from rfl] at ht
    exact absurd ht (by simp)

/-- Companion to `pnrTail_decomp`: a string of that shape parses to
exactly those groups, whatever follows them. -/
theorem pnrTail_build {g2 g3 g4 : List Char} (rest sep : List Char)
    (hsep : sep = [] ∨ sep = ['+'] ∨ sep = ['-'])
    (h22 : g2.length = 2) (h2all : g2.all isDigitChar = true)
    (h34 : g3.length = 4) (h3all : g3.all isDigitChar = true)
    (h44 : g4.length = 4) (h4all : g4.all isWordChar = true) :
    pnrTail (g2 ++ (g3 ++ (sep ++ (g4 ++ rest)))) = some (g2, g3, g4, rest) := by
  have u2 : takeN isDigitChar 2 (g2 ++ (g3 ++ (sep ++ (g4 ++ rest))))
      = some (g2, g3 ++ (sep ++ (g4 ++ rest))) := by
    rw [← h22]; exact takeN_exact h2all _
  have u3 : takeN isDigitChar 4 (g3 ++ (sep ++ (g4 ++ rest)))
      = some (g3, sep ++ (g4 ++ rest)) := by
    rw [← h34]; exact takeN_exact h3all _
  have u4 : takeN isWordChar 4 (g4 ++ rest) = some (g4, rest) := by
    rw [← h44]; exact takeN_exact h4all _
  unfold pnrTail
  simp only [u2, u3]
  rcases hsep with rfl | rfl | rfl
  · obtain ⟨c, g4', rfl⟩ : ∃ c g4', g4 = c :: g4' := by
      cases g4 with
      | nil => simp at h44
      | cons c g4' => exact ⟨c, g4', rfl⟩
    have hw : isWordChar c = true := by
      simp only [List.all_cons, Bool.and_eq_true] at h4all
      exact h4all.1
    simp only [List.nil_append, List.cons_append]
    rw [if_neg (by simp [wordChar_ne_plus hw, wordChar_ne_minus hw])]
    simp only [pnrGroup4]
    rw [List.cons_append] at u4
    rw [u4]
    rfl
  · simp only [List.cons_append, List.nil_append]
    rw [if_pos (by decide)]
    exact orElseO_some_left (by simp only [pnrGroup4, u4]; rfl)
  · simp only [List.cons_append, List.nil_append]
    rw [if_pos (by decide)]
    exact orElseO_some_left (by simp only [pnrGroup4, u4]; rfl)

/-- Appending characters to a string whose prefix already matches cannot
make `pnrTail` fail, and leaves the matched groups unchanged. -/
theorem pnrTail_mono {s g2 g3 g4 r : List Char}
    (h : pnrTail s = some (g2, g3, g4, r)) (t : List Char) :
    pnrTail (s ++ t) = some (g2, g3, g4, r ++ t) := by
  obtain ⟨l2, a2, l3, a3, l4, a4⟩ := pnrTail_sound h
  obtain ⟨sep, hsep, rfl⟩ := pnrTail_decomp h
  have hb := pnrTail_build (r ++ t) sep hsep l2 a2 l3 a3 l4 a4
  simpa [List.append_assoc] using hb

/-- `re.match` success is stable under appending: the person-number
matcher still finds a prefix match on any extension. -/
theorem matchPnr_mono {s : List Char}
    {x : Option (List Char) × List Char × List Char × List Char × List Char}
    (h : matchPnr s = some x) (t : List Char) :
    ∃ y, matchPnr (s ++ t) = some y := by
  unfold matchPnr at h
  unfold orElseO at h
  split at h
  · rename_i z hz
    obtain rfl := Option.some.inj h
    split at hz
    · rename_i g1 s1 h1
      rw [Option.map_eq_some'] at hz
      obtain ⟨y, hy, hzy⟩ := hz
      obtain ⟨yg2, yg3, yg4, yr⟩ := y
      refine ⟨(some g1, yg2, yg3, yg4, yr ++ t), ?_⟩
      unfold matchPnr
      refine orElseO_some_left ?_
      rw [takeN_mono h1 t]
      simp only [pnrTail_mono hy t, Option.map_some']
    · exact absurd hz (by simp)
  · rw [Option.map_eq_some'] at h
    obtain ⟨y, hy, hxy⟩ := h
    obtain ⟨yg2, yg3, yg4, yr⟩ := y
    unfold matchPnr
    refine orElseO_some_right (none, yg2, yg3, yg4, yr ++ t) ?_
    rw [pnrTail_mono hy t]
    rfl

theorem dateGroup4_inv {g3 u a g4 r : List Char}
    (h : dateGroup4 g3 u = some (a, g4, r)) :
    a = g3 ∧ takeN isDigitChar 2 u = some (g4, r) := by
  unfold dateGroup4 at h
  cases ht : takeN isDigitChar 2 u with
  | none => rw [ht] at h; simp at h
  | some gr =>
    obtain ⟨x, y⟩ := gr
    rw [ht] at h
    simp only [Option.map_some', Option.some.injEq, Prod.mk.injEq] at h
    obtain ⟨rfl, rfl, rfl⟩ := h
    exact ⟨rfl, rfl⟩

/-- A hyphen can never begin a two-digit group. -/
theorem head_digit_ne_minus {g rest2 s' : List Char}
    (hl : g.length = 2) (ha : g.all isDigitChar = true)
    (hd : '-' :: s' = g ++ rest2) : False := by
  cases g with
  | nil => simp at hl
  | cons d g' =>
    simp only [List.cons_append] at hd
    injection hd with h1 _
    have hdg : isDigitChar d = true := by
      simp only [List.all_cons, Bool.and_eq_true] at ha
      exact ha.1
    rw [← h1] at hdg
    exact absurd hdg (by decide)

/-- Full inversion of `dateAfterG2`. -/
theorem dateAfterG2_decomp {s g3 g4 r : List Char}
    (h : dateAfterG2 s = some (g3, g4, r)) :
    g3.length = 2 ∧ g3.all isDigitChar = true ∧ g4.length = 2 ∧ g4.all isDigitChar = true
      ∧ ∃ sep, (sep = [] ∨ sep = ['-']) ∧ s = g3 ++ (sep ++ (g4 ++ r)) := by
  unfold dateAfterG2 at h
  split at h
  · exact absurd h (by simp)
  rename_i g3' s3 h2
  obtain ⟨l3, a3, hs⟩ := takeN_sound h2
  subst hs
  split at h
  · rename_i c s4
    split at h
    · rename_i hc
      unfold orElseO at h
      split at h
      · rename_i x hx
        obtain rfl := Option.some.inj h
        obtain ⟨rfl, ht⟩ := dateGroup4_inv hx
        obtain ⟨l4, a4, hs4⟩ := takeN_sound ht
        subst hs4
        subst hc
        exact ⟨l3, a3, l4, a4, ['-'], Or.inr rfl, by simp⟩
      · obtain ⟨rfl, ht⟩ := dateGroup4_inv h
        subst hc
        rw [show takeN isDigitChar 2 ('-' :: s4) = none from rfl] at ht
        exact absurd ht (by simp)
    · obtain ⟨rfl, ht⟩ := dateGroup4_inv h
      obtain ⟨l4, a4, hs4⟩ := takeN_sound ht
      exact ⟨l3, a3, l4, a4, [], Or.inl rfl, by rw [hs4]; simp⟩
  · obtain ⟨rfl, ht⟩ := dateGroup4_inv h
    rw [show takeN isDigitChar 2 ([] : List Char) = none from rfl] at ht
    exact absurd ht (by simp)

/-- Companion to `dateAfterG2_decomp`. -/
theorem dateAfterG2_build {g3 g4 : List Char} (rest sep : List Char)
    (hsep : sep = [] ∨ sep = ['-'])
    (l3 : g3.length = 2) (a3 : g3.all isDigitChar = true)
    (l4 : g4.length = 2) (a4 : g4.all isDigitChar = true) :
    dateAfterG2 (g3 ++ (sep ++ (g4 ++ rest))) = some (g3, g4, rest) := by
  have u2 : takeN isDigitChar 2 (g3 ++ (sep ++ (g4 ++ rest)))
      = some (g3, sep ++ (g4 ++ rest)) := by
    rw [← l3]; exact takeN_exact a3 _
  have u4 : takeN isDigitChar 2 (g4 ++ rest) = some (g4, rest) := by
    rw [← l4]; exact takeN_exact a4 _
  unfold dateAfterG2
  simp only [u2]
  rcases hsep with rfl | rfl
  · obtain ⟨c, g4', rfl⟩ : ∃ c g4', g4 = c :: g4' := by
      cases g4 with
      | nil => simp at l4
      | cons c g4' => exact ⟨c, g4', rfl⟩
    have hdig : isDigitChar c = true := by
      simp only [List.all_cons, Bool.and_eq_true] at a4
      exact a4.1
    simp only [List.nil_append, List.cons_append]
    rw [if_neg (digitChar_ne_minus hdig)]
    simp only [dateGroup4]
    rw [List.cons_append] at u4
    rw [u4]
    rfl
  · simp only [List.cons_append, List.nil_append]
    rw [if_pos trivial]
    exact orElseO_some_left (by simp only [dateGroup4, u4]; rfl)

/-- Full inversion of `dateTail`. -/
theorem dateTail_decomp {s g2 g3 g4 r : List Char}
    (h : dateTail s = some (g2, g3, g4, r)) :
    g2.length = 2 ∧ g2.all isDigitChar = true ∧ g3.length = 2 ∧ g3.all isDigitChar = true
      ∧ g4.length = 2 ∧ g4.all isDigitChar = true
      ∧ ∃ sep1 sep2, (sep1 = [] ∨ sep1 = ['-']) ∧ (sep2 = [] ∨ sep2 = ['-'])
        ∧ s = g2 ++ (sep1 ++ (g3 ++ (sep2 ++ (g4 ++ r)))) := by
  unfold dateTail at h
  split at h
  · exact absurd h (by simp)
  rename_i g2' s2 h2
  obtain ⟨l2, a2, hs⟩ := takeN_sound h2
  subst hs
  rw [Option.map_eq_some'] at h
  obtain ⟨y, hy, hxy⟩ := h
  obtain ⟨a, b, cc⟩ := y
  obtain ⟨rfl, rfl, rfl, rfl⟩ : g2' = g2 ∧ a = g3 ∧ b = g4 ∧ cc = r := by
    simpa [Prod.ext_iff] using hxy
  split at hy
  · rename_i c s3
    split at hy
    · rename_i hc
      unfold orElseO at hy
      split at hy
      · rename_i x hx
        obtain rfl := Option.some.inj hy
        obtain ⟨l3, a3, l4, a4, sep2, hsep2, hdecomp⟩ := dateAfterG2_decomp hx
        subst hc
        exact ⟨l2, a2, l3, a3, l4, a4, ['-'], sep2, Or.inr rfl, hsep2,
          by rw [hdecomp]; simp⟩
      · obtain ⟨l3, a3, l4, a4, sep2, hsep2, hdecomp⟩ := dateAfterG2_decomp hy
        subst hc
        exact (head_digit_ne_minus l3 a3 hdecomp).elim
    · obtain ⟨l3, a3, l4, a4, sep2, hsep2, hdecomp⟩ := dateAfterG2_decomp hy
      exact ⟨l2, a2, l3, a3, l4, a4, [], sep2, Or.inl rfl, hsep2,
        by rw [hdecomp]; simp⟩
  · rw [show dateAfterG2 ([] : List Char) = none from rfl] at hy
    exact absurd hy (by simp)

/-- Companion to `dateTail_decomp`. -/
theorem dateTail_build {g2 g3 g4 : List Char} (rest sep1 sep2 : List Char)
    (hsep1 : sep1 = [] ∨ sep1 = ['-']) (hsep2 : sep2 = [] ∨ sep2 = ['-'])
    (l2 : g2.length = 2) (a2 : g2.all isDigitChar = true)
    (l3 : g3.length = 2) (a3 : g3.all isDigitChar = true)
    (l4 : g4.length = 2) (a4 : g4.all isDigitChar = true) :
    dateTail (g2 ++ (sep1 ++ (g3 ++ (sep2 ++ (g4 ++ rest))))) = some (g2, g3, g4, rest) := by
  have u2 : takeN isDigitChar 2 (g2 ++ (sep1 ++ (g3 ++ (sep2 ++ (g4 ++ rest)))))
      = some (g2, sep1 ++ (g3 ++ (sep2 ++ (g4 ++ rest)))) := by
    rw [← l2]; exact takeN_exact a2 _
  have hb := dateAfterG2_build rest sep2 hsep2 l3 a3 l4 a4
  unfold dateTail
  simp only [u2]
  rcases hsep1 with rfl | rfl
  · obtain ⟨c, g3', rfl⟩ : ∃ c g3', g3 = c :: g3' := by
      cases g3 with
      | nil => simp at l3
      | cons c g3' => exact ⟨c, g3', rfl⟩
    have hdig : isDigitChar c = true := by
      simp only [List.all_cons, Bool.and_eq_true] at a3
      exact a3.1
    simp only [List.nil_append, List.cons_append]
    rw [if_neg (digitChar_ne_minus hdig)]
    rw [List.cons_append] at hb
    rw [hb]
    rfl
  · simp only [List.cons_append, List.nil_append]
    rw [if_pos trivial]
    rw [orElseO_some_left hb]
    rfl

theorem dateTail_mono {s g2 g3 g4 r : List Char}
    (h : dateTail s = some (g2, g3, g4, r)) (t : List Char) :
    dateTail (s ++ t) = some (g2, g3, g4, r ++ t) := by
  obtain ⟨l2, a2, l3, a3, l4, a4, sep1, sep2, hs1, hs2, rfl⟩ := dateTail_decomp h
  have hb := dateTail_build (r ++ t) sep1 sep2 hs1 hs2 l2 a2 l3 a3 l4 a4
  simpa [List.append_assoc] using hb

/-- `re.match` success of the date pattern is stable under appending. -/
theorem matchDate_mono {s : List Char}
    {x : Option (List Char) × List Char × List Char × List Char × List Char}
    (h : matchDate s = some x) (t : List Char) :
    ∃ y, matchDate (s ++ t) = some y := by
  unfold matchDate at h
  unfold orElseO at h
  split at h
  · rename_i z hz
    obtain rfl := Option.some.inj h
    split at hz
    · rename_i g1 s1 h1
      rw [Option.map_eq_some'] at hz
      obtain ⟨y, hy, hzy⟩ := hz
      obtain ⟨yg2, yg3, yg4, yr⟩ := y
      refine ⟨(some g1, yg2, yg3, yg4, yr ++ t), ?_⟩
      unfold matchDate
      refine orElseO_some_left ?_
      rw [takeN_mono h1 t]
      simp only [dateTail_mono hy t, Option.map_some']
    · exact absurd hz (by simp)
  · rw [Option.map_eq_some'] at h
    obtain ⟨y, hy, hxy⟩ := h
    obtain ⟨yg2, yg3, yg4, yr⟩ := y
    unfold matchDate
    refine orElseO_some_right (none, yg2, yg3, yg4, yr ++ t) ?_
    rw [dateTail_mono hy t]
    rfl

/-- Branch equation: no prefix match of the date pattern means no result. -/
theorem validateDate_noMatch {s : String} (hm : matchDate s.data = none) :
    validateDate s = none := by
  unfold validateDate; rw [hm]

/-- Branch equation for the date normalizer: century group present. -/
theorem validateDate_withCentury {s : String} {g1 g2 g3 g4 r : List Char}
    (hm : matchDate s.data = some (some g1, g2, g3, g4, r)) :
    validateDate s = some (String.mk ((g1 ++ g2) ++ ('-' :: g3) ++ ('-' :: g4))) := by
  unfold validateDate; rw [hm]

theorem validatePersonNr_isSome_of_match (nowYear : Nat) {s : String}
    {q : Option (List Char) × List Char × List Char × List Char × List Char}
    (h : matchPnr s.data = some q) : (validatePersonNr nowYear s).isSome = true := by
  obtain ⟨og1, g2, g3, g4, r⟩ := q
  cases og1 with
  | none =>
    rw [validatePersonNr_noCentury h]
    by_cases hc : (nowYear : Int) - 2000 ≥ (digitsVal g2 : Int) + 5
    · rw [if_pos hc]; rfl
    · rw [if_neg hc]; rfl
  | some g1 => rw [validatePersonNr_withCentury h]; rfl

theorem validateDate_isSome_of_match {s : String}
    {q : Option (List Char) × List Char × List Char × List Char × List Char}
    (h : matchDate s.data = some q) : (validateDate s).isSome = true := by
  obtain ⟨og1, g2, g3, g4, r⟩ := q
  cases og1 with
  | none => rw [validateDate_noCentury h]; rfl
  | some g1 => rw [validateDate_withCentury h]; rfl

/-- C10: both validators match only a prefix of their input: whenever a
prefix of the string matches the pattern, normalization succeeds on the
whole string and the characters after the matched prefix are dropped;
an input yields no result only when no prefix matches.  Concretely,
"19461212-1212EXTRA" normalizes to "194612121212". -/
theorem prefix_match_normalization (nowYear : Nat) (p t p2 t2 : List Char)
    (hp : (matchPnr p).isSome = true) (hd : (matchDate p2).isSome = true) :
    (validatePersonNr nowYear (String.mk (p ++ t))).isSome = true
    ∧ (validateDate (String.mk (p2 ++ t2))).isSome = true
    ∧ (∀ s : String, validatePersonNr nowYear s = none ↔ matchPnr s.data = none)
    ∧ (∀ s : String, validateDate s = none ↔ matchDate s.data = none)
    ∧ validatePersonNr nowYear "19461212-1212EXTRA" = some "194612121212" := by
  obtain ⟨x, hx⟩ := Option.isSome_iff_exists.mp hp
  obtain ⟨y, hy⟩ := Option.isSome_iff_exists.mp hd
  obtain ⟨z, hz⟩ := matchPnr_mono hx t
  obtain ⟨w, hw⟩ := matchDate_mono hy t2
  refine ⟨validatePersonNr_isSome_of_match nowYear (by rw [data_mk]; exact hz),
    validateDate_isSome_of_match (by rw [data_mk]; exact hw), ?_, ?_, ?_⟩
  · intro s
    constructor
    · intro hnone
      cases hm : matchPnr s.data with
      | none => rfl
      | some q =>
        have hq := validatePersonNr_isSome_of_match nowYear hm
        rw [hnone] at hq
        exact absurd hq (by simp)
    · intro hm; exact validatePersonNr_noMatch hm
  · intro s
    constructor
    · intro hnone
      cases hm : matchDate s.data with
      | none => rfl
      | some q =>
        have hq := validateDate_isSome_of_match hm
        rw [hnone] at hq
        exact absurd hq (by simp)
    · intro hm; exact validateDate_noMatch hm
  · have hpnr : matchPnr ("19461212-1212EXTRA".data)
        = some (some "19".data, "46".data, "1212".data, "1212".data, "EXTRA".data) := by
      decide
    rw [validatePersonNr_withCentury hpnr]
    rfl

/-- C10 witness: the person-number matcher accepts the dashed prefix, the
extension with "EXTRA" still normalizes and drops the trailing junk. -/
theorem prefix_match_normalization_witness :
    (Ladok.validatePersonNr 2024 (String.mk ("19461212-1212".data ++ "EXTRA".data))).isSome
      = true
    ∧ Ladok.validatePersonNr 2024 "19461212-1212EXTRA" = some "194612121212" := by
  have h := prefix_match_normalization 2024 "19461212-1212".data "EXTRA".data
    "190314".data "xyz".data (by decide) (by decide)
  exact ⟨h.1, h.2.2.2.2⟩

/-! ## Python-dict lemmas -/

theorem dictLookup_insert_self {K V : Type} [BEq K] [LawfulBEq K]
    (m : List (K × V)) (k : K) (v : V) :
    dictLookup (dictInsert m k v) k = some v := by
  induction m with
  | nil => simp [dictInsert, dictLookup]
  | cons kv rest ih =>
    obtain ⟨k', v'⟩ := kv
    by_cases hk : (k' == k) = true
    · simp [dictInsert, dictLookup, hk]
    · simp only [dictInsert, hk]
      rw [if_neg (by simp [hk])]
      simp only [dictLookup]
      rw [if_neg (by simp_all)]
      exact ih

theorem dictLookup_insert_ne {K V : Type} [BEq K] [LawfulBEq K]
    (m : List (K × V)) (k j : K) (v : V) (h : (k == j) = false) :
    dictLookup (dictInsert m k v) j = dictLookup m j := by
  induction m with
  | nil => simp [dictInsert, dictLookup, h]
  | cons kv rest ih =>
    obtain ⟨k', v'⟩ := kv
    by_cases hk : (k' == k) = true
    · obtain rfl : k' = k := eq_of_beq hk
      simp only [dictInsert]
      rw [if_pos hk]
      simp only [dictLookup]
      rw [if_neg (by simp_all), if_neg (by simp_all)]
    · simp only [dictInsert]
      rw [if_neg (by simp [hk])]
      simp only [dictLookup]
      by_cases hj : (k' == j) = true
      · rw [if_pos hj, if_pos hj]
      · rw [if_neg (by simp [hj]), if_neg (by simp [hj])]
        exact ih

theorem mem_keys_dictInsert {K V : Type} [BEq K] [LawfulBEq K]
    {m : List (K × V)} {k j : K} {v : V}
    (h : j ∈ (dictInsert m k v).map Prod.fst) : j ∈ m.map Prod.fst ∨ j = k := by
  induction m with
  | nil => simp [dictInsert] at h; exact Or.inr h
  | cons kv rest ih =>
    obtain ⟨k', v'⟩ := kv
    by_cases hk : (k' == k) = true
    · simp only [dictInsert] at h
      rw [if_pos hk] at h
      simp only [List.map_cons, List.mem_cons] at h
      rcases h with rfl | h
      · exact Or.inr rfl
      · exact Or.inl (by simp [h])
    · simp only [dictInsert] at h
      rw [if_neg (by simp [hk])] at h
      simp only [List.map_cons, List.mem_cons] at h
      rcases h with rfl | h
      · exact Or.inl (by simp)
      · rcases ih h with hm | rfl
        · exact Or.inl (by simp [hm])
        · exact Or.inr rfl

theorem keys_nodup_dictInsert {K V : Type} [BEq K] [LawfulBEq K]
    (m : List (K × V)) (k : K) (v : V)
    (h : (m.map Prod.fst).Nodup) : ((dictInsert m k v).map Prod.fst).Nodup := by
  induction m with
  | nil => simp [dictInsert]
  | cons kv rest ih =>
    obtain ⟨k', v'⟩ := kv
    simp only [List.map_cons, List.nodup_cons] at h
    by_cases hk : (k' == k) = true
    · obtain rfl : k' = k := eq_of_beq hk
      simp only [dictInsert]
      rw [if_pos hk]
      simp only [List.map_cons, List.nodup_cons]
      exact h
    · simp only [dictInsert]
      rw [if_neg (by simp [hk])]
      simp only [List.map_cons, List.nodup_cons]
      refine ⟨?_, ih h.2⟩
      intro hmem
      rcases mem_keys_dictInsert hmem with hm | rfl
      · exact h.1 hm
      · exact hk (beq_self_eq_true k')

/-- One attested step keeps the keys duplicate-free. -/
theorem attestedStep_nodup (m : RMap) (a : AttestedResultRaw)
    (h : (m.map Prod.fst).Nodup) : ((attestedStep m a).map Prod.fst).Nodup := by
  unfold attestedStep
  split
  · exact keys_nodup_dictInsert _ _ _ h
  · exact h

theorem attested_fold_nodup :
    ∀ (l : List AttestedResultRaw) (m : RMap),
      (m.map Prod.fst).Nodup → ((l.foldl attestedStep m).map Prod.fst).Nodup := by
  intro l
  induction l with
  | nil => intro m h; exact h
  | cons a rest ih =>
    intro m h
    exact ih _ (attestedStep_nodup m a h)

/-- The pending pass succeeds when every secondary lookup finds a code,
keeps the keys duplicate-free, and finally binds every key written by
some pending record to the entry of the **last** pending record with
that key — entries written by the attested pass survive only for keys no
pending record resolves to. -/
theorem processPending_spec (env : LadokEnv) :
    ∀ (pend : List PendingRaw) (m : RMap),
      (∀ p ∈ pend, (env.instanceCode p.utbildningsinstansUID).isSome = true) →
      ∃ m', processPending env m pend = .ok m'
        ∧ ((m.map Prod.fst).Nodup → (m'.map Prod.fst).Nodup)
        ∧ ∀ k : Option String,
            dictLookup m' k =
              match lastWith (fun p => env.instanceCode p.utbildningsinstansUID == some k)
                  pend with
              | some q => some (pendingEntry q)
              | none => dictLookup m k := by
  intro pend
  induction pend with
  | nil =>
    intro m _
    exact ⟨m, rfl, id, fun k => by simp [lastWith]⟩
  | cons p rest ih =>
    intro m hall
    have hp := hall p (by simp)
    obtain ⟨kp, hkp⟩ := Option.isSome_iff_exists.mp hp
    obtain ⟨m', hm', hnodup, hlook⟩ :=
      ih (dictInsert m kp (pendingEntry p)) (fun q hq => hall q (by simp [hq]))
    refine ⟨m', ?_, ?_, ?_⟩
    · unfold processPending
      rw [hkp]
      exact hm'
    · intro hn
      exact hnodup (keys_nodup_dictInsert _ _ _ hn)
    · intro k
      rw [hlook k]
      cases hl : lastWith (fun p => env.instanceCode p.utbildningsinstansUID == some k)
          rest with
      | some q => simp [lastWith, hl]
      | none =>
        simp only [lastWith, hl]
        by_cases hfk : (env.instanceCode p.utbildningsinstansUID == some k) = true
        · rw [if_pos hfk]
          obtain rfl : kp = k := by
            rw [hkp] at hfk
            simpa using hfk
          exact dictLookup_insert_self m kp (pendingEntry p)
        · rw [if_neg (by simp [hfk])]
          refine dictLookup_insert_ne m kp k (pendingEntry p) ?_
          rw [hkp] at hfk
          simpa using hfk

/-- C2: on the successful path, the mapping `get_results` returns has at
most one entry per component code, and every key some pending record
resolves to is bound to the entry of that pending record (grade code,
status `pending(N)`, date) — the pending pass runs after the attested
pass and therefore shadows it on any key collision. -/
theorem get_results_pending_shadows (env : LadokEnv) (nowYear : Nat)
    (person_nr_raw course_code person_nr : String) (student : Student)
    (student_course : StudentCourse)
    (h1 : validatePersonNr nowYear person_nr_raw = some person_nr)
    (h2 : env.studentLookup person_nr = some student)
    (h3 : (env.studentCourses student.id).find? (fun c => c.code == course_code)
        = some student_course)
    (h4 : ∀ p ∈ env.pendingResults student.id student_course.education_id,
        (env.instanceCode p.utbildningsinstansUID).isSome = true) :
    ∃ m, get_results_full true env nowYear person_nr_raw course_code = .ok m
      ∧ (m.map Prod.fst).Nodup
      ∧ ∀ (k : Option String) (q : PendingRaw),
          lastWith (fun p => env.instanceCode p.utbildningsinstansUID == some k)
            (env.pendingResults student.id student_course.education_id) = some q →
          dictLookup m k = some (pendingEntry q) := by
  obtain ⟨m', hm', hnod, hlook⟩ :=
    processPending_spec env (env.pendingResults student.id student_course.education_id)
      ((match (env.attestedByStudent student.id).find?
            (fun g : AttestedCourseGroup => g.kursUID == student_course.education_id) with
        | some g => g.studentresultat
        | none => []).foldl attestedStep []) h4
  refine ⟨m', ?_, hnod (attested_fold_nodup _ [] (by simp)), ?_⟩
  · unfold get_results_full
    simp only [Bool.not_true, Bool.false_eq_true, if_false, h1, h2, h3]
    exact hm'
  · intro k q hq
    rw [hlook k, hq]

/-- Concrete service responses for the C2 witness: one attested record
and one pending record for the same component code "TEN1". -/
def c2Env : LadokEnv :=
  { studentLookup := fun _ => some ⟨"sid", "Anna", "Andersson", "194612121212", true⟩
    studentCourses := fun _ => [⟨"cid", "rid", "eid", "iid", "DD1321", "Prog"⟩]
    courseMoments := fun _ _ => []
    courseResultsRaw := fun _ _ => ⟨"scr", []⟩
    attestedByStudent := fun _ =>
      [⟨"eid", [⟨some "F", some "2019-01-01", some (some "TEN1")⟩]⟩]
    pendingResults := fun _ _ => [⟨"inst1", "E", 1, some "2019-03-23"⟩]
    instanceCode := fun _ => some (some "TEN1")
    gradeScales := []
    writeAccepted := fun _ => true }

/-- C2 witness: the merged view exists, has duplicate-free keys, and maps
"TEN1" to the pending entry even though an attested record for "TEN1"
was fetched first. -/
theorem get_results_pending_shadows_witness :
    ∃ m, get_results_full true c2Env 2024 "19461212-1212" "DD1321" = .ok m
      ∧ (m.map Prod.fst).Nodup
      ∧ ∀ (k : Option String) (q : PendingRaw),
          lastWith (fun p => c2Env.instanceCode p.utbildningsinstansUID == some k)
            (c2Env.pendingResults "sid" "eid") = some q →
          dictLookup m k = some (pendingEntry q) :=
  get_results_pending_shadows c2Env 2024 "19461212-1212" "DD1321" "194612121212"
    ⟨"sid", "Anna", "Andersson", "194612121212", true⟩ ⟨"cid", "rid", "eid", "iid", "DD1321", "Prog"⟩
    (by decide) rfl rfl (by intro p hp; rfl)

/-- The scan predicate of `save_result` evaluated on a translated entry
agrees with `pendingMatches` on the raw entry. -/
theorem translateEntry_pending_pred (scales : List GradeScale) (momentId : String)
    (r : RawResultatEntry) :
    (match (translateEntry scales r).pending with
     | some p => p.moment_id == momentId
     | none => false) = pendingMatches momentId r := by
  unfold translateEntry pendingMatches
  cases r.arbetsunderlag with
  | none => rfl
  | some a => rfl

/-- The pending scan over the translated result list is the scan over the
raw entries, with the found draft translated. -/
theorem findPrevious_translate (scales : List GradeScale) (momentId : String)
    (l : List RawResultatEntry) :
    findPrevious (l.map (translateEntry scales)) momentId
      = (l.find? (pendingMatches momentId)).bind
          (fun r => r.arbetsunderlag.map (translatePending scales)) := by
  unfold findPrevious
  rw [List.find?_map]
  have hpred : ((fun cr : CourseResult =>
      match cr.pending with
      | some p => p.moment_id == momentId
      | none => false) ∘ translateEntry scales) = pendingMatches momentId := by
    funext r
    exact translateEntry_pending_pred scales momentId r
  rw [hpred]
  cases hf : l.find? (pendingMatches momentId) with
  | none => rfl
  | some r0 => simp [translateEntry]

/-- C1: `save_result`'s create-vs-update decision over the fetched result
set: when some fetched entry holds a draft for the target component
instance, the write is an update carrying that draft's record id and its
`SenasteResultatandring` stamp exactly as fetched (first such entry);
otherwise it is a create carrying the parent result-set id, the target
instance id, the grade id, the scale id and the date. -/
theorem save_result_upsert_decision (scales : List GradeScale) (raw : RawCourseResults)
    (momentId : String) (gradeId scaleId : Nat) (date : String) :
    (∀ r0 a0, raw.resultatPaUtbildningar.find? (pendingMatches momentId) = some r0 →
        r0.arbetsunderlag = some a0 →
        save_result_write (translateCourseResults scales raw) momentId gradeId scaleId date
          = SaveCall.update a0.uid gradeId scaleId date a0.senasteResultatandring)
    ∧ (raw.resultatPaUtbildningar.find? (pendingMatches momentId) = none →
        save_result_write (translateCourseResults scales raw) momentId gradeId scaleId date
          = SaveCall.create raw.uid momentId gradeId scaleId date) := by
  constructor
  · intro r0 a0 hf ha
    simp only [save_result_write, translateCourseResults]
    rw [findPrevious_translate, hf]
    simp [ha, translatePending]
  · intro hf
    simp only [save_result_write, translateCourseResults]
    rw [findPrevious_translate, hf]
    rfl

/-- C1 witness data: a result set whose only entry carries a draft for
component "M1". -/
def c1RawUpd : RawCourseResults :=
  ⟨"SCR", [⟨"edu1", some ⟨"P1", "M1", 7, "2020-01-01", 2, "STAMP"⟩, none⟩]⟩

/-- C1 witness data: a result set with no draft at all. -/
def c1RawNew : RawCourseResults := ⟨"SCR", [⟨"edu1", none, none⟩]⟩

/-- C1 witness: with a matching draft the write is the update carrying
"P1" and "STAMP"; without one it is the create carrying "SCR" and "M1". -/
theorem save_result_upsert_decision_witness :
    Ladok.save_result_write (Ladok.translateCourseResults [] c1RawUpd) "M1" 5 6 "2020-02-02"
      = Ladok.SaveCall.update "P1" 5 6 "2020-02-02" "STAMP"
    ∧ Ladok.save_result_write (Ladok.translateCourseResults [] c1RawNew) "M1" 5 6 "2020-02-02"
      = Ladok.SaveCall.create "SCR" "M1" 5 6 "2020-02-02" :=
  ⟨(save_result_upsert_decision [] c1RawUpd "M1" 5 6 "2020-02-02").1
      ⟨"edu1", some ⟨"P1", "M1", 7, "2020-01-01", 2, "STAMP"⟩, none⟩
      ⟨"P1", "M1", 7, "2020-01-01", 2, "STAMP"⟩ (by decide) rfl,
   (save_result_upsert_decision [] c1RawNew "M1" 5 6 "2020-02-02").2 (by decide)⟩

/-- Service stub for witnesses that never reach the network. -/
def emptyEnv : LadokEnv :=
  { studentLookup := fun _ => none
    studentCourses := fun _ => []
    courseMoments := fun _ _ => []
    courseResultsRaw := fun _ _ => ⟨"", []⟩
    attestedByStudent := fun _ => []
    pendingResults := fun _ _ => []
    instanceCode := fun _ => none
    gradeScales := []
    writeAccepted := fun _ => false }

/-- C5: on an active session, `save_result` rejects a grade that is
itself a scale code ("AF"/"PF"), the pass mark "P" against scale "AF",
or a letter grade A–E against scale "PF", with an invalid-grade error,
an empty network trace, and independently of the person number and date
arguments (so before their validation and before any HTTP request). -/
theorem save_result_rejects_grade_locally (env : LadokEnv) (nowYear : Nat)
    (person_nr_raw course_code course_moment result_date_raw grade_raw grade_scale_code :
      String)
    (h : grade_raw = "AF" ∨ grade_raw = "PF"
      ∨ (grade_raw = "P" ∧ grade_scale_code = "AF")
      ∨ ((grade_raw = "A" ∨ grade_raw = "B" ∨ grade_raw = "C" ∨ grade_raw = "D"
          ∨ grade_raw = "E") ∧ grade_scale_code = "PF")) :
    ∃ e, save_result_full true env nowYear person_nr_raw course_code course_moment
        result_date_raw grade_raw grade_scale_code = ⟨[], .error e, true⟩
      ∧ (e = SaveError.invalidGradeScaleLike grade_raw
        ∨ e = SaveError.invalidGradeMismatch grade_raw grade_scale_code) := by
  rcases h with rfl | rfl | ⟨rfl, rfl⟩ | ⟨hl, rfl⟩
  · exact ⟨SaveError.invalidGradeScaleLike "AF", rfl, Or.inl rfl⟩
  · exact ⟨SaveError.invalidGradeScaleLike "PF", rfl, Or.inl rfl⟩
  · exact ⟨SaveError.invalidGradeMismatch "P" "AF", rfl, Or.inr rfl⟩
  · rcases hl with rfl | rfl | rfl | rfl | rfl
    · exact ⟨SaveError.invalidGradeMismatch "A" "PF", rfl, Or.inr rfl⟩
    · exact ⟨SaveError.invalidGradeMismatch "B" "PF", rfl, Or.inr rfl⟩
    · exact ⟨SaveError.invalidGradeMismatch "C" "PF", rfl, Or.inr rfl⟩
    · exact ⟨SaveError.invalidGradeMismatch "D" "PF", rfl, Or.inr rfl⟩
    · exact ⟨SaveError.invalidGradeMismatch "E" "PF", rfl, Or.inr rfl⟩

/-- C5 witness: grade "P" against scale "AF" is rejected with no network
call even though the person number and date passed are garbage. -/
theorem save_result_rejects_grade_locally_witness :
    ∃ e, save_result_full true emptyEnv 2024 "bogus" "DD1321" "TEN1" "nodate" "P" "AF"
        = ⟨[], .error e, true⟩
      ∧ (e = SaveError.invalidGradeScaleLike "P"
        ∨ e = SaveError.invalidGradeMismatch "P" "AF") :=
  save_result_rejects_grade_locally emptyEnv 2024 "bogus" "DD1321" "TEN1" "nodate" "P" "AF"
    (Or.inr (Or.inr (Or.inl ⟨rfl, rfl⟩)))

/-- C3 counterexample: `all_grading_scale` invoked on an inactive session
does not fail with "not signed in" — it returns the stored grade scales
(the source method has no guard). -/
theorem all_grading_scale_ignores_guard :
    Ladok.all_grading_scale false [] = .ok []
    ∧ Ladok.all_grading_scale false [] ≠ .error SaveError.notSignedIn :=
  ⟨rfl, fun h => Except.noConfusion h⟩

/-- C3 amended: on an inactive session, `get_results`, `save_result`,
`get_student_data` and `logout` fail with "not signed in" before doing
anything else (`save_result` makes no network call), while
`all_grading_scale` — the exception — ignores the flag and returns the
stored scales. -/
theorem operations_guard_not_signed_in (env : LadokEnv) (nowYear : Nat)
    (a b c d e f : String) (status : Nat) (scales : List GradeScale) :
    get_results_full false env nowYear a b = .error SaveError.notSignedIn
    ∧ save_result_full false env nowYear a b c d e f
        = ⟨[], .error SaveError.notSignedIn, false⟩
    ∧ get_student_data_full false env nowYear a = .error SaveError.notSignedIn
    ∧ logout_full false status = (.error SaveError.notSignedIn, false)
    ∧ all_grading_scale false scales = .ok scales :=
  ⟨rfl, rfl, rfl, rfl, rfl⟩

/-- `save_result` contains no assignment to `self.signed_in`: every
branch returns with the flag it was entered with. -/
theorem save_result_signedIn_unchanged (signedIn : Bool) (env : LadokEnv) (nowYear : Nat)
    (a b c d e f : String) :
    (save_result_full signedIn env nowYear a b c d e f).signedInAfter = signedIn := by
  simp only [save_result_full]
  repeat' split
  all_goals rfl

/-- Concrete service responses for the C6 counterexample: everything
resolves, but the write response lacks the `Resultat` collection. -/
def c6Env : LadokEnv :=
  { studentLookup := fun _ => some ⟨"sid", "Anna", "Andersson", "194612121212", true⟩
    studentCourses := fun _ => [⟨"cid", "rid", "eid", "iid", "DD1321", "Prog"⟩]
    courseMoments := fun _ _ => []
    courseResultsRaw := fun _ _ => ⟨"scr", []⟩
    attestedByStudent := fun _ => []
    pendingResults := fun _ _ => []
    instanceCode := fun _ => none
    gradeScales := [⟨2, "AF", "AF-skala", [⟨7, "E", true⟩]⟩]
    writeAccepted := fun _ => false }

/-- C6 counterexample: when the remote service rejects the write,
`save_result` raises the composite write-rejected error but the
session's active flag stays `true` — the rejection does not invalidate
the session. -/
theorem write_rejection_keeps_session_active :
    (save_result_full true c6Env 2024 "19461212-1212" "DD1321" "DD1321" "19-03-14" "E"
        "AF").result
      = .error (SaveError.writeRejected "19461212-1212" "DD1321" "E" "19-03-14")
    ∧ (save_result_full true c6Env 2024 "19461212-1212" "DD1321" "DD1321" "19-03-14" "E"
        "AF").signedInAfter = true :=
  ⟨rfl, rfl⟩

/-- C6 amended: the active flag is cleared only by an explicit `logout`
whose request returns HTTP 200 (any other status leaves it set), and a
`save_result` call — rejected by the service or not — never changes it. -/
theorem session_invalidation_rules (status : Nat) (signedIn : Bool) (env : LadokEnv)
    (nowYear : Nat) (a b c d e f : String) :
    logout_full true 200 = (.ok 200, false)
    ∧ logout_full true status = (.ok status, !(status == 200))
    ∧ (save_result_full signedIn env nowYear a b c d e f).signedInAfter = signedIn := by
  refine ⟨rfl, ?_, save_result_signedIn_unchanged signedIn env nowYear a b c d e f⟩
  cases hs : (status == 200) <;> simp [logout_full, hs]

/-- C9: in the handshake tail, a credentials-POST page with no further
action form fails with exactly the invalid-credentials error (and hence
with no other error kind), while a final page containing the
not-recognized-teacher marker fails with the distinct not-a-teacher
error. -/
theorem handshake_error_kinds (unescape : List Char → List Char) (credPage : List Char)
    (postSaml : List Char → List Char → List Char → List Char) :
    (searchCapture formActionPre formActionPost credPage = none →
      loginTail unescape credPage postSaml = .error .invalidCredentials)
    ∧ (∀ a r smlr, searchCapture formActionPre formActionPost credPage = some a →
        searchCapture relayStatePre hiddenInputPost credPage = some r →
        searchCapture samlResponsePre hiddenInputPost credPage = some smlr →
        hasSub notTeacherMarker (postSaml (unescape a) (unescape r) (unescape smlr)) = true →
        loginTail unescape credPage postSaml = .error .notATeacher) := by
  constructor
  · intro h
    unfold loginTail
    rw [h]
  · intro a r smlr ha hr hs hm
    unfold loginTail
    simp only [ha, hr, hs]
    rw [if_pos hm]

/-- The C9 witness page: an action form, a relay state and a SAML
response in the literal markup the source searches for. -/
def c9Page : List Char :=
  ("<form action=\"X\" method=\"post\">"
    ++ "<input type=\"hidden\" name=\"RelayState\" value=\"R\"/>"
    ++ "<input type=\"hidden\" name=\"SAMLResponse\" value=\"S\"/>").data

/-- C9 witness: the empty page (no action form) gives exactly
invalid-credentials; a complete page whose final POST answer carries the
marker gives not-a-teacher. -/
theorem handshake_error_kinds_witness :
    Ladok.loginTail id [] (fun _ _ _ => []) = .error .invalidCredentials
    ∧ Ladok.loginTail id c9Page (fun _ _ _ => Ladok.notTeacherMarker)
        = .error .notATeacher :=
  ⟨(handshake_error_kinds id [] (fun _ _ _ => [])).1 (by decide),
   (handshake_error_kinds id c9Page (fun _ _ _ => Ladok.notTeacherMarker)).2
     "X".data "R".data "S".data (by decide) (by decide) (by decide) (by decide)⟩

end Ladok
